import Mathlib

/-!
Shallow embedding of the tempchat server core (`src/server/routes.ts`: the
WebSocket session handlers, and the `MemStorage` in-memory store; message
schema from the shared schema module).  JavaScript `Map`s are modelled as
association lists (`mget`/`mset`/`mdel` mirror `Map.get`/`set`/`delete`,
including `set`'s replace-in-place / append-at-end ordering).  Wall-clock
reads (`new Date()`, `Date.now()`) become explicit `now : Nat` parameters
(milliseconds), and `randomUUID()` results become explicit fresh-string
parameters.  `ws.send` calls are recorded as `(connection, response)` events;
the `readyState === OPEN` guard is modelled by membership in `openConns`.
-/

namespace TempChat

/-- JS `Map.get`: first entry with the given key, if any. -/
def mget {κ α : Type} [DecidableEq κ] : List (κ × α) → κ → Option α
  | [], _ => none
  | (k', v) :: rest, k => if k' = k then some v else mget rest k

/-- JS `Map.set`: replace the value at the first matching key in place,
or append a new entry at the end (JS `Map` insertion order). -/
def mset {κ α : Type} [DecidableEq κ] : List (κ × α) → κ → α → List (κ × α)
  | [], k, v => [(k, v)]
  | (k', v') :: rest, k, v =>
      if k' = k then (k, v) :: rest else (k', v') :: mset rest k v

/-- JS `Map.delete`: drop the first entry with the given key. -/
def mdel {κ α : Type} [DecidableEq κ] : List (κ × α) → κ → List (κ × α)
  | [], _ => []
  | (k', v') :: rest, k => if k' = k then rest else (k', v') :: mdel rest k

/-- Shared-schema `Participant`: session identity bound to one join. -/
structure Participant where
  id : String
  nickname : String
  socketId : String
  joinedAt : Nat
deriving DecidableEq, Repr

/-- Room record `ChatRoom` as built by `MemStorage.createRoom` from the `{ id }` insert
the route passes: `createdAt`/`lastActivityAt` stamped at creation,
`participantCount` the string `"0"`.  The schema's unused presentation
columns (`name`, `password`, `creatorId`) are never set nor read by the
modelled core and are omitted. -/
structure ChatRoom where
  id : String
  createdAt : Nat
  lastActivityAt : Nat
  participantCount : String
deriving DecidableEq, Repr

/-- A stored `Message` (id and timestamp server-assigned). -/
structure Message where
  id : String
  roomId : String
  senderId : Option String
  senderNickname : Option String
  content : String
  timestamp : Nat
deriving DecidableEq, Repr

/-- Argument of `storage.addMessage` after `insertMessageSchema.parse`. -/
structure InsertMessage where
  roomId : String
  senderId : Option String
  senderNickname : Option String
  content : String
deriving DecidableEq, Repr

/-- JS `String.prototype.trim`: strip leading and trailing whitespace.
Modelled over the string's character list (ASCII whitespace, which is all
the server-side code ever distinguishes). -/
def jsTrim (s : String) : String :=
  ⟨((s.data.dropWhile Char.isWhitespace).reverse.dropWhile Char.isWhitespace).reverse⟩

/-- JS `x || null` on an optional string: empty string is falsy. -/
def orNull : Option String → Option String
  | none => none
  | some s => if s = "" then none else some s

/-- The three private maps of `MemStorage`. -/
structure StoreState where
  rooms : List (String × ChatRoom)
  messages : List (String × List Message)
  participants : List (String × List Participant)
deriving DecidableEq, Repr

/-- Store op `MemStorage.createRoom` (insert is just the room id). -/
def createRoom (s : StoreState) (id : String) (now : Nat) : ChatRoom × StoreState :=
  let room : ChatRoom :=
    { id := id, createdAt := now, lastActivityAt := now, participantCount := "0" }
  (room,
   { rooms := mset s.rooms id room
     messages := mset s.messages id []
     participants := mset s.participants id [] })

/-- Store op `MemStorage.getRoom`. -/
def getRoom (s : StoreState) (id : String) : Option ChatRoom :=
  mget s.rooms id

/-- Store op `MemStorage.updateRoomActivity`: stamp `lastActivityAt` if the room exists. -/
def updateRoomActivity (s : StoreState) (id : String) (now : Nat) : StoreState :=
  match mget s.rooms id with
  | none => s
  | some room =>
      { s with rooms := mset s.rooms id { room with lastActivityAt := now } }

/-- Store op `MemStorage.deleteRoom`: cascade to messages and participants. -/
def deleteRoom (s : StoreState) (id : String) : StoreState :=
  { rooms := mdel s.rooms id
    messages := mdel s.messages id
    participants := mdel s.participants id }

/-- Store op `MemStorage.getInactiveRooms`: rooms with
`lastActivityAt < Date.now() - thresholdMinutes*60*1000`. -/
def getInactiveRooms (s : StoreState) (thresholdMinutes now : Nat) : List ChatRoom :=
  (s.rooms.map Prod.snd).filter
    (fun r => r.lastActivityAt < now - thresholdMinutes * 60 * 1000)

/-- Store op `MemStorage.getRoomMessages`: `this.messages.get(roomId) || []`. -/
def getRoomMessages (s : StoreState) (roomId : String) : List Message :=
  (mget s.messages roomId).getD []

/-- Store op `MemStorage.getRoomParticipants`: `this.participants.get(roomId) || []`. -/
def getRoomParticipants (s : StoreState) (roomId : String) : List Participant :=
  (mget s.participants roomId).getD []

/-- Store op `MemStorage.addMessage`: build the message (fresh id, server timestamp,
`|| null` on sender fields), push onto `messages.get(roomId) || []`, then
`updateRoomActivity(roomId)`.  Nothing checks that the room exists. -/
def addMessage (s : StoreState) (im : InsertMessage) (freshId : String) (now : Nat) :
    Message × StoreState :=
  let msg : Message :=
    { id := freshId, roomId := im.roomId, senderId := orNull im.senderId,
      senderNickname := orNull im.senderNickname, content := im.content,
      timestamp := now }
  let roomMessages := (mget s.messages im.roomId).getD []
  let s1 := { s with messages := mset s.messages im.roomId (roomMessages ++ [msg]) }
  (msg, updateRoomActivity s1 im.roomId now)

/-- Store op `MemStorage.updateParticipantCount`: if the room exists, overwrite its
`participantCount` with `participants.length.toString()`. -/
def updateParticipantCount (s : StoreState) (roomId : String) : StoreState :=
  match mget s.rooms roomId with
  | none => s
  | some room =>
      let ps := (mget s.participants roomId).getD []
      { s with rooms := mset s.rooms roomId { room with participantCount := toString ps.length } }

/-- Store op `MemStorage.addParticipant`: filter out any entry with the same
`socketId`, push the new participant, recount. -/
def addParticipant (s : StoreState) (roomId : String) (p : Participant) : StoreState :=
  let ps := (mget s.participants roomId).getD []
  let filtered := ps.filter (fun q => q.socketId ≠ p.socketId)
  let s1 := { s with participants := mset s.participants roomId (filtered ++ [p]) }
  updateParticipantCount s1 roomId

/-- Store op `MemStorage.removeParticipant`: filter by `socketId`, recount. -/
def removeParticipant (s : StoreState) (roomId socketId : String) : StoreState :=
  let ps := (mget s.participants roomId).getD []
  let filtered := ps.filter (fun q => q.socketId ≠ socketId)
  let s1 := { s with participants := mset s.participants roomId filtered }
  updateParticipantCount s1 roomId

/-- A live WebSocket handle (identity of a `ws` object). -/
abbrev Conn := Nat

/-- Projection `ClientMessage` as built in `handleSendMessage`
(`senderNickname || 'Anonymous'`, `senderId || undefined`). -/
structure ClientMessage where
  id : String
  content : String
  senderNickname : String
  senderId : Option String
  timestamp : Nat
  readBy : List String
  deliveredTo : List String
deriving DecidableEq, Repr

/-- Outbound `WSResponse` frames. -/
inductive WSResponse where
  | roomJoined (roomId : String) (participant : Participant) (messages : List Message)
  | participantUpdate (participants : List Participant) (count : Nat)
  | newMessage (m : ClientMessage)
  | typingUpdate (userId nickname : String) (isTyping : Bool)
  | messageRead (messageId readerId readerNickname : String)
  | roomDestroyed
  | error (e : String)
deriving DecidableEq, Repr

/-- Full server state: the store plus the three connection maps of
`registerRoutes` (`roomConnections : roomId → (socketId → ws)`,
`socketToRoom`, `socketToUser`) and the set of sockets whose
`readyState` is `OPEN`. -/
structure ServerState where
  store : StoreState
  roomConnections : List (String × List (String × Conn))
  socketToRoom : List (Conn × String)
  socketToUser : List (Conn × Participant)
  openConns : List Conn
deriving DecidableEq, Repr

/-- An emitted event: `ws.send(JSON.stringify(resp))` on a given handle. -/
abbrev Emit := Conn × WSResponse

/-- Guarded send: `if (ws.readyState === WebSocket.OPEN) ws.send(...)`. -/
def sendTo (st : ServerState) (c : Conn) (r : WSResponse) : List Emit :=
  if c ∈ st.openConns then [(c, r)] else []

/-- Handler helper `broadcastParticipantUpdate`: read the post-mutation participant list and
send `participant_update` to every connection registered to the room
(in `Map` iteration order); no state change. -/
def broadcastParticipantUpdate (st : ServerState) (roomId : String) : List Emit :=
  let participants := getRoomParticipants st.store roomId
  let conns := (mget st.roomConnections roomId).getD []
  (conns.map (fun p => sendTo st p.2 (.participantUpdate participants participants.length))).flatten

/-- JS `nickname || 'Anonymous'` (empty string is falsy). -/
def nickOrAnon : Option String → String
  | none => "Anonymous"
  | some s => if s = "" then "Anonymous" else s

/-- Handler `handleJoinRoom`: reject falsy `roomId`, reject unknown room, otherwise
mint a participant with a fresh id and a fresh `socketId`, add it to the
store, register the connection under that fresh `socketId`, send the
`room_joined` snapshot to the joiner, then broadcast `participant_update`. -/
def handleJoinRoom (st : ServerState) (ws : Conn) (roomId nickname : Option String)
    (freshPid freshSid : String) (now : Nat) : ServerState × List Emit :=
  match roomId with
  | none => (st, sendTo st ws (.error "Room ID required"))
  | some rid =>
    if rid = "" then (st, sendTo st ws (.error "Room ID required"))
    else
      match getRoom st.store rid with
      | none => (st, sendTo st ws (.error "Room not found"))
      | some _ =>
        let participant : Participant :=
          { id := freshPid, nickname := nickOrAnon nickname,
            socketId := freshSid, joinedAt := now }
        let store1 := addParticipant st.store rid participant
        let conns := (mget st.roomConnections rid).getD []
        let st1 : ServerState :=
          { st with store := store1
                    roomConnections := mset st.roomConnections rid (mset conns freshSid ws)
                    socketToRoom := mset st.socketToRoom ws rid
                    socketToUser := mset st.socketToUser ws participant }
        let joined := sendTo st1 ws (.roomJoined rid participant (getRoomMessages store1 rid))
        (st1, joined ++ broadcastParticipantUpdate st1 rid)

/-- Validation `insertMessageSchema` = `createInsertSchema(messages).omit({id, timestamp})`:
`roomId` and `content` are required strings, `senderId` and `senderNickname`
optional nullable strings.  No minimum length is imposed on `content`, so
parsing a record whose fields are already strings always succeeds; the
`none` branch below mirrors the handler's dead `catch`. -/
def insertMessageParse (roomId senderId senderNickname content : String) :
    Option InsertMessage :=
  some { roomId := roomId, senderId := some senderId,
         senderNickname := some senderNickname, content := content }

/-- Handler `handleSendMessage`: falsy room binding, missing user binding or falsy
text send `error "Invalid message"` to the sender; otherwise the trimmed text
is parsed, stored via `addMessage`, and `new_message` is broadcast to every
connection registered to the room (sender included). -/
def handleSendMessage (st : ServerState) (ws : Conn) (text : Option String)
    (freshMid : String) (now : Nat) : ServerState × List Emit :=
  match mget st.socketToRoom ws, mget st.socketToUser ws, text with
  | some rid, some user, some t =>
    if rid = "" ∨ t = "" then (st, sendTo st ws (.error "Invalid message"))
    else
      match insertMessageParse rid user.id user.nickname (jsTrim t) with
      | none => (st, sendTo st ws (.error "Failed to send message"))
      | some im =>
        let res := addMessage st.store im freshMid now
        let saved := res.1
        let cm : ClientMessage :=
          { id := saved.id, content := saved.content,
            senderNickname := (saved.senderNickname).getD "Anonymous",
            senderId := saved.senderId, timestamp := saved.timestamp,
            readBy := [], deliveredTo := [] }
        let st1 := { st with store := res.2 }
        let conns := (mget st1.roomConnections rid).getD []
        (st1, (conns.map (fun p => sendTo st1 p.2 (.newMessage cm))).flatten)
  | _, _, _ => (st, sendTo st ws (.error "Invalid message"))

/-- Handler `handleTypingStart`: if bound, broadcast `typing_update (isTyping:true)`
to every registered connection other than the sender; no state change. -/
def handleTypingStart (st : ServerState) (ws : Conn) : ServerState × List Emit :=
  match mget st.socketToRoom ws, mget st.socketToUser ws with
  | some rid, some user =>
    if rid = "" then (st, [])
    else
      let conns := (mget st.roomConnections rid).getD []
      (st, (conns.map (fun p =>
        if p.2 ≠ ws then sendTo st p.2 (.typingUpdate user.id user.nickname true)
        else [])).flatten)
  | _, _ => (st, [])

/-- Handler `handleTypingStop`: as `handleTypingStart` with `isTyping:false`. -/
def handleTypingStop (st : ServerState) (ws : Conn) : ServerState × List Emit :=
  match mget st.socketToRoom ws, mget st.socketToUser ws with
  | some rid, some user =>
    if rid = "" then (st, [])
    else
      let conns := (mget st.roomConnections rid).getD []
      (st, (conns.map (fun p =>
        if p.2 ≠ ws then sendTo st p.2 (.typingUpdate user.id user.nickname false)
        else [])).flatten)
  | _, _ => (st, [])

/-- Handler `handleMessageRead`: if bound and `messageId` truthy, broadcast a
`message_read` receipt to every registered connection (sender included). -/
def handleMessageRead (st : ServerState) (ws : Conn) (messageId : Option String) :
    ServerState × List Emit :=
  match mget st.socketToRoom ws, mget st.socketToUser ws, messageId with
  | some rid, some user, some mid =>
    if rid = "" ∨ mid = "" then (st, [])
    else
      let conns := (mget st.roomConnections rid).getD []
      (st, (conns.map (fun p => sendTo st p.2 (.messageRead mid user.id user.nickname))).flatten)
  | _, _, _ => (st, [])

/-- Handler `handleDisconnect`: if the socket is bound (truthy room id and a user),
remove the bound participant's `socketId` from the store and from
`roomConnections` (dropping the room entry when it becomes empty) and
broadcast `participant_update`; in every case finally delete the socket's
`socketToRoom`/`socketToUser` entries. -/
def handleDisconnect (st : ServerState) (ws : Conn) : ServerState × List Emit :=
  let body : ServerState × List Emit :=
    match mget st.socketToRoom ws, mget st.socketToUser ws with
    | some rid, some user =>
      if rid = "" then (st, [])
      else
        let store1 := removeParticipant st.store rid user.socketId
        let roomConns1 :=
          match mget st.roomConnections rid with
          | none => st.roomConnections
          | some conns =>
            let conns1 := mdel conns user.socketId
            if conns1.length = 0 then mdel st.roomConnections rid
            else mset st.roomConnections rid conns1
        let st1 := { st with store := store1, roomConnections := roomConns1 }
        (st1, broadcastParticipantUpdate st1 rid)
    | _, _ => (st, [])
  ({ body.1 with socketToRoom := mdel body.1.socketToRoom ws,
                 socketToUser := mdel body.1.socketToUser ws }, body.2)

/-- An inbound frame: either the `JSON.parse`/property-access of the payload
throws (caught by the handler's `try`), or it yields an object whose fields
are read by the dispatched handler. -/
inductive InFrame where
  | unparseable
  | parsed (type : String) (roomId nickname message messageId : Option String)
deriving DecidableEq, Repr

/-- The `ws.on('message')` dispatcher: a throwing parse sends
`error "Invalid message format"` to the offending connection; a parsed frame
is dispatched on `message.type`, and a `type` matching no `case` of the
`switch` falls through with no effect at all. -/
def handleFrame (st : ServerState) (ws : Conn) (f : InFrame)
    (freshPid freshSid freshMid : String) (now : Nat) : ServerState × List Emit :=
  match f with
  | .unparseable => (st, sendTo st ws (.error "Invalid message format"))
  | .parsed t roomId nickname message messageId =>
    if t = "join_room" then handleJoinRoom st ws roomId nickname freshPid freshSid now
    else if t = "leave_room" then handleDisconnect st ws
    else if t = "send_message" then handleSendMessage st ws message freshMid now
    else if t = "typing_start" then handleTypingStart st ws
    else if t = "typing_stop" then handleTypingStop st ws
    else if t = "message_read" then handleMessageRead st ws messageId
    else (st, [])

/-- One tick of `MemStorage.startCleanupJob`: collect the rooms inactive for
more than 10 minutes and `deleteRoom` each.  The sweep runs inside
`MemStorage`, which holds no connection maps and performs no `ws.send`:
it emits no events. -/
def cleanupTick (s : StoreState) (now : Nat) : StoreState × List Emit :=
  ((getInactiveRooms s 10 now).foldl (fun st r => deleteRoom st r.id) s, [])

/-! Concrete fixture states used by closed theorems below. -/

/-- Fresh store holding the single room `"R"` created at time 0. -/
def exStore : StoreState := (createRoom ⟨[], [], []⟩ "R" 0).2

/-- Server over `exStore` with no registered connections; sockets 0 and 1
are open. -/
def exServer : ServerState :=
  { store := exStore, roomConnections := [], socketToRoom := [], socketToUser := []
    openConns := [0, 1] }

/-- State after socket 0 joined room `"R"` as `"alice"` (fresh ids `"p1"`,
`"s1"`, at time 1). -/
def exJoined : ServerState :=
  (handleJoinRoom exServer 0 (some "R") (some "alice") "p1" "s1" 1).1

/-- State after socket 0 issued `join_room` for `"R"` a second time (fresh
ids `"p2"`, `"s2"`, at time 2). -/
def exJoinedTwice : ServerState :=
  (handleJoinRoom exJoined 0 (some "R") (some "alice") "p2" "s2" 2).1

/-- State after socket 1 also joined `"R"` as `"bob"` (fresh ids `"p2"`,
`"s2"`, at time 2). -/
def exTwoConns : ServerState :=
  (handleJoinRoom exJoined 1 (some "R") (some "bob") "p2" "s2" 2).1

/-! Basic lemmas about the `Map` model. -/

theorem mget_mset_self {κ α : Type} [DecidableEq κ] (m : List (κ × α)) (k : κ) (v : α) :
    mget (mset m k v) k = some v := by
  induction m with
  | nil => simp [mget, mset]
  | cons hd tl ih =>
    obtain ⟨k', v'⟩ := hd
    by_cases h : k' = k <;> simp [mget, mset, h, ih]

theorem mget_mset_ne {κ α : Type} [DecidableEq κ] (m : List (κ × α)) (k k'' : κ) (v : α)
    (h : k'' ≠ k) : mget (mset m k v) k'' = mget m k'' := by
  induction m with
  | nil => simp [mget, mset, Ne.symm h]
  | cons hd tl ih =>
    obtain ⟨k', v'⟩ := hd
    by_cases hk : k' = k
    · subst hk
      simp [mget, mset, Ne.symm h]
    · by_cases hk' : k' = k''
      · subst hk'
        simp [mget, mset, hk]
      · simp [mget, mset, hk, hk', ih]

theorem mget_mdel_ne {κ α : Type} [DecidableEq κ] (m : List (κ × α)) (k k'' : κ)
    (h : k'' ≠ k) : mget (mdel m k) k'' = mget m k'' := by
  induction m with
  | nil => simp [mdel]
  | cons hd tl ih =>
    obtain ⟨k', v'⟩ := hd
    by_cases hk : k' = k
    · subst hk
      simp [mget, mdel, Ne.symm h]
    · by_cases hk' : k' = k''
      · subst hk'
        simp [mget, mdel, hk]
      · simp [mget, mdel, hk, hk', ih]

theorem mget_eq_none_iff {κ α : Type} [DecidableEq κ] (m : List (κ × α)) (k : κ) :
    mget m k = none ↔ k ∉ m.map Prod.fst := by
  induction m with
  | nil => simp [mget]
  | cons hd tl ih =>
    obtain ⟨k', v'⟩ := hd
    by_cases h : k' = k
    · subst h
      simp [mget]
    · have h2 : ¬ k = k' := fun hk => h hk.symm
      simp [mget, h, h2, ih]

theorem mget_some_mem {κ α : Type} [DecidableEq κ] {m : List (κ × α)} {k : κ} {v : α}
    (h : mget m k = some v) : (k, v) ∈ m := by
  induction m with
  | nil => simp [mget] at h
  | cons hd tl ih =>
    obtain ⟨k', v'⟩ := hd
    by_cases hk : k' = k
    · subst hk
      simp [mget] at h
      simp [h]
    · simp [mget, hk] at h
      exact List.mem_cons_of_mem _ (ih h)

theorem mget_eq_of_mem_nodup {κ α : Type} [DecidableEq κ] {m : List (κ × α)} {k : κ} {v : α}
    (hN : (m.map Prod.fst).Nodup) (h : (k, v) ∈ m) : mget m k = some v := by
  induction m with
  | nil => simp at h
  | cons hd tl ih =>
    obtain ⟨k', v'⟩ := hd
    simp only [List.map_cons, List.nodup_cons] at hN
    rcases List.mem_cons.mp h with h1 | h1
    · cases h1
      simp [mget]
    · have hk : ¬ k' = k := by
        rintro rfl
        exact hN.1 (List.mem_map.mpr ⟨(k', v), h1, rfl⟩)
      simp [mget, hk, ih hN.2 h1]

theorem mdel_of_not_mem {κ α : Type} [DecidableEq κ] {m : List (κ × α)} {k : κ}
    (h : k ∉ m.map Prod.fst) : mdel m k = m := by
  induction m with
  | nil => simp [mdel]
  | cons hd tl ih =>
    obtain ⟨k', v'⟩ := hd
    have h1 : ¬ k' = k := fun hk => h (by simp [hk])
    have h2 : k ∉ tl.map Prod.fst := fun hk => h (by simp [hk])
    simp [mdel, h1, ih h2]

theorem mset_of_not_mem {κ α : Type} [DecidableEq κ] {m : List (κ × α)} {k : κ} (v : α)
    (h : k ∉ m.map Prod.fst) : mset m k v = m ++ [(k, v)] := by
  induction m with
  | nil => simp [mset]
  | cons hd tl ih =>
    obtain ⟨k', v'⟩ := hd
    have h1 : ¬ k' = k := fun hk => h (by simp [hk])
    have h2 : k ∉ tl.map Prod.fst := fun hk => h (by simp [hk])
    simp [mset, h1, ih h2]

theorem mget_mdel_self {κ α : Type} [DecidableEq κ] {m : List (κ × α)} (k : κ)
    (hN : (m.map Prod.fst).Nodup) : mget (mdel m k) k = none := by
  induction m with
  | nil => simp [mget, mdel]
  | cons hd tl ih =>
    obtain ⟨k', v'⟩ := hd
    simp only [List.map_cons, List.nodup_cons] at hN
    by_cases hk : k' = k
    · subst hk
      simpa [mdel, mget_eq_none_iff] using hN.1
    · simp [mdel, mget, hk, ih hN.2]

theorem keys_mdel_sublist {κ α : Type} [DecidableEq κ] (m : List (κ × α)) (k : κ) :
    ((mdel m k).map Prod.fst).Sublist (m.map Prod.fst) := by
  induction m with
  | nil => simp [mdel]
  | cons hd tl ih =>
    obtain ⟨k', v'⟩ := hd
    by_cases hk : k' = k
    · simp [mdel, hk, List.sublist_cons_self]
    · simpa [mdel, hk] using ih.cons₂ k'

theorem nodup_keys_mdel {κ α : Type} [DecidableEq κ] {m : List (κ × α)} (k : κ)
    (hN : (m.map Prod.fst).Nodup) : ((mdel m k).map Prod.fst).Nodup :=
  hN.sublist (keys_mdel_sublist m k)

/-! Store invariants and store-level lemmas. -/

/-- Well-formedness a JS `Map` guarantees: no duplicate keys in any of the
three store maps. -/
abbrev StoreWF (s : StoreState) : Prop :=
  (s.rooms.map Prod.fst).Nodup ∧ (s.messages.map Prod.fst).Nodup ∧
    (s.participants.map Prod.fst).Nodup

/-- Invariant of the real store: a room record is keyed by its own `id`
(`this.rooms.set(room.id, room)`). -/
abbrev RoomKeysCoherent (s : StoreState) : Prop :=
  ∀ kr ∈ s.rooms, (Prod.snd kr : ChatRoom).id = Prod.fst kr

theorem storeWF_deleteRoom {s : StoreState} (hW : StoreWF s) (id : String) :
    StoreWF (deleteRoom s id) :=
  ⟨nodup_keys_mdel id hW.1, nodup_keys_mdel id hW.2.1, nodup_keys_mdel id hW.2.2⟩

theorem updateRoomActivity_messages (s : StoreState) (id : String) (now : Nat) :
    (updateRoomActivity s id now).messages = s.messages := by
  unfold updateRoomActivity
  cases mget s.rooms id <;> rfl

theorem updateRoomActivity_participants (s : StoreState) (id : String) (now : Nat) :
    (updateRoomActivity s id now).participants = s.participants := by
  unfold updateRoomActivity
  cases mget s.rooms id <;> rfl

theorem updateParticipantCount_participants (s : StoreState) (id : String) :
    (updateParticipantCount s id).participants = s.participants := by
  unfold updateParticipantCount
  cases mget s.rooms id <;> rfl

theorem updateParticipantCount_messages (s : StoreState) (id : String) :
    (updateParticipantCount s id).messages = s.messages := by
  unfold updateParticipantCount
  cases mget s.rooms id <;> rfl

/-- Recounting never touches `lastActivityAt` of any room. -/
theorem updateParticipantCount_room_last (s : StoreState) (id q : String) :
    (getRoom (updateParticipantCount s id) q).map ChatRoom.lastActivityAt
      = (getRoom s q).map ChatRoom.lastActivityAt := by
  unfold updateParticipantCount getRoom
  cases h : mget s.rooms id with
  | none => rfl
  | some room =>
    by_cases hq : q = id
    · subst hq
      simp [mget_mset_self, h]
    · simp [mget_mset_ne _ _ _ _ hq]

/-- One tick of the idle sweep, pointwise on keys: a key named by the
inactive list is gone from all three maps, every other key is untouched. -/
theorem cleanupFold_mget (L : List ChatRoom) (s : StoreState) (hW : StoreWF s) (k : String) :
    (mget (L.foldl (fun st r => deleteRoom st r.id) s).rooms k
       = if k ∈ L.map ChatRoom.id then none else mget s.rooms k)
  ∧ (mget (L.foldl (fun st r => deleteRoom st r.id) s).messages k
       = if k ∈ L.map ChatRoom.id then none else mget s.messages k)
  ∧ (mget (L.foldl (fun st r => deleteRoom st r.id) s).participants k
       = if k ∈ L.map ChatRoom.id then none else mget s.participants k) := by
  induction L generalizing s with
  | nil => simp
  | cons r L ih =>
    obtain ⟨step1, step2, step3⟩ := ih (deleteRoom s r.id) (storeWF_deleteRoom hW r.id)
    have hfold : (r :: L).foldl (fun st r => deleteRoom st r.id) s
        = L.foldl (fun st r => deleteRoom st r.id) (deleteRoom s r.id) := rfl
    by_cases hk : k = r.id
    · have hin : k ∈ (r :: L).map ChatRoom.id := by simp [hk]
      have e1 : mget (deleteRoom s r.id).rooms k = none := by
        rw [hk]; exact mget_mdel_self _ hW.1
      have e2 : mget (deleteRoom s r.id).messages k = none := by
        rw [hk]; exact mget_mdel_self _ hW.2.1
      have e3 : mget (deleteRoom s r.id).participants k = none := by
        rw [hk]; exact mget_mdel_self _ hW.2.2
      refine ⟨?_, ?_, ?_⟩ <;> rw [hfold, if_pos hin]
      · rw [step1]
        by_cases hmem : k ∈ L.map ChatRoom.id
        · rw [if_pos hmem]
        · rw [if_neg hmem, e1]
      · rw [step2]
        by_cases hmem : k ∈ L.map ChatRoom.id
        · rw [if_pos hmem]
        · rw [if_neg hmem, e2]
      · rw [step3]
        by_cases hmem : k ∈ L.map ChatRoom.id
        · rw [if_pos hmem]
        · rw [if_neg hmem, e3]
    · have hiff : k ∈ (r :: L).map ChatRoom.id ↔ k ∈ L.map ChatRoom.id := by
        simp [hk]
      have e1 : mget (deleteRoom s r.id).rooms k = mget s.rooms k :=
        mget_mdel_ne _ _ _ hk
      have e2 : mget (deleteRoom s r.id).messages k = mget s.messages k :=
        mget_mdel_ne _ _ _ hk
      have e3 : mget (deleteRoom s r.id).participants k = mget s.participants k :=
        mget_mdel_ne _ _ _ hk
      by_cases hmem : k ∈ L.map ChatRoom.id
      · have hin : k ∈ (r :: L).map ChatRoom.id := hiff.mpr hmem
        refine ⟨?_, ?_, ?_⟩ <;> rw [hfold, if_pos hin]
        · rw [step1, if_pos hmem]
        · rw [step2, if_pos hmem]
        · rw [step3, if_pos hmem]
      · have hout : k ∉ (r :: L).map ChatRoom.id := fun hx => hmem (hiff.mp hx)
        refine ⟨?_, ?_, ?_⟩ <;> rw [hfold, if_neg hout]
        · rw [step1, if_neg hmem, e1]
        · rw [step2, if_neg hmem, e2]
        · rw [step3, if_neg hmem, e3]

/-! Lemmas about broadcast fan-out. -/

/-- Membership in an all-connections broadcast of a fixed event. -/
theorem mem_broadcast_iff {st : ServerState} {ev : WSResponse}
    {conns : List (String × Conn)} {c : Conn} {e : WSResponse} :
    (c, e) ∈ (conns.map (fun p => sendTo st p.2 ev)).flatten
      ↔ e = ev ∧ c ∈ st.openConns ∧ ∃ sid, (sid, c) ∈ conns := by
  induction conns with
  | nil => simp
  | cons p tl ih =>
    obtain ⟨sid, d⟩ := p
    rw [List.map_cons, List.flatten_cons, List.mem_append, ih]
    simp only [sendTo]
    by_cases ho : d ∈ st.openConns
    · simp only [if_pos ho, List.mem_singleton, Prod.mk.injEq]
      constructor
      · rintro (⟨rfl, rfl⟩ | ⟨rfl, hc, sid', hmem⟩)
        · exact ⟨rfl, ho, sid, by simp⟩
        · exact ⟨rfl, hc, sid', by simp [hmem]⟩
      · rintro ⟨rfl, hc, sid', hmem⟩
        rcases List.mem_cons.mp hmem with h1 | h1
        · obtain ⟨rfl, rfl⟩ : sid' = sid ∧ c = d := by
            constructor <;> [exact congrArg Prod.fst h1; exact congrArg Prod.snd h1]
          exact Or.inl ⟨rfl, rfl⟩
        · exact Or.inr ⟨rfl, hc, sid', h1⟩
    · simp only [if_neg ho, List.not_mem_nil, false_or]
      constructor
      · rintro ⟨rfl, hc, sid', hmem⟩
        exact ⟨rfl, hc, sid', List.mem_cons_of_mem _ hmem⟩
      · rintro ⟨rfl, hc, sid', hmem⟩
        rcases List.mem_cons.mp hmem with h1 | h1
        · have : c = d := congrArg Prod.snd h1
          exact absurd (this ▸ hc) ho
        · exact ⟨rfl, hc, sid', h1⟩

/-- Membership in a broadcast that skips the sender (the typing fan-out). -/
theorem mem_fanout_iff {st : ServerState} {ws : Conn} {ev : WSResponse}
    {conns : List (String × Conn)} {c : Conn} {e : WSResponse} :
    (c, e) ∈ (conns.map (fun p =>
        if p.2 ≠ ws then sendTo st p.2 ev else [])).flatten
      ↔ c ≠ ws ∧ e = ev ∧ c ∈ st.openConns ∧ ∃ sid, (sid, c) ∈ conns := by
  induction conns with
  | nil => simp
  | cons p tl ih =>
    obtain ⟨sid, d⟩ := p
    rw [List.map_cons, List.flatten_cons, List.mem_append, ih]
    by_cases hw : d = ws
    · subst hw
      simp only [ne_eq, not_true_eq_false, if_neg, List.not_mem_nil, false_or,
        not_not, reduceIte]
      constructor
      · rintro ⟨hc, rfl, ho, sid', hmem⟩
        exact ⟨hc, rfl, ho, sid', List.mem_cons_of_mem _ hmem⟩
      · rintro ⟨hc, rfl, ho, sid', hmem⟩
        rcases List.mem_cons.mp hmem with h1 | h1
        · have : c = d := congrArg Prod.snd h1
          exact absurd this hc
        · exact ⟨hc, rfl, ho, sid', h1⟩
    · simp only [ne_eq, hw, not_false_eq_true, if_pos]
      simp only [sendTo]
      by_cases ho : d ∈ st.openConns
      · simp only [if_pos ho, List.mem_singleton, Prod.mk.injEq]
        constructor
        · rintro (⟨rfl, rfl⟩ | ⟨hc, rfl, ho', sid', hmem⟩)
          · exact ⟨hw, rfl, ho, sid, by simp⟩
          · exact ⟨hc, rfl, ho', sid', by simp [hmem]⟩
        · rintro ⟨hc, rfl, ho', sid', hmem⟩
          rcases List.mem_cons.mp hmem with h1 | h1
          · obtain ⟨rfl, rfl⟩ : sid' = sid ∧ c = d := by
              constructor <;> [exact congrArg Prod.fst h1; exact congrArg Prod.snd h1]
            exact Or.inl ⟨rfl, rfl⟩
          · exact Or.inr ⟨hc, rfl, ho', sid', h1⟩
      · simp only [if_neg ho, List.not_mem_nil, false_or]
        constructor
        · rintro ⟨hc, rfl, ho', sid', hmem⟩
          exact ⟨hc, rfl, ho', sid', List.mem_cons_of_mem _ hmem⟩
        · rintro ⟨hc, rfl, ho', sid', hmem⟩
          rcases List.mem_cons.mp hmem with h1 | h1
          · have : c = d := congrArg Prod.snd h1
            exact absurd (this ▸ ho') ho
          · exact ⟨hc, rfl, ho', sid', h1⟩

/-! Derived facts about single store operations. -/

theorem updateRoomActivity_last (s : StoreState) {id' : String} {room : ChatRoom}
    (h : mget s.rooms id' = some room) (now : Nat) :
    (getRoom (updateRoomActivity s id' now) id').map ChatRoom.lastActivityAt = some now := by
  unfold updateRoomActivity getRoom
  rw [h]
  simp [mget_mset_self]

theorem updateRoomActivity_none (s : StoreState) {id' : String}
    (h : mget s.rooms id' = none) (now : Nat) :
    updateRoomActivity s id' now = s := by
  unfold updateRoomActivity
  rw [h]

theorem addMessage_getRoomMessages (s : StoreState) (im : InsertMessage)
    (mid : String) (now : Nat) :
    getRoomMessages (addMessage s im mid now).2 im.roomId
      = getRoomMessages s im.roomId
        ++ [⟨mid, im.roomId, orNull im.senderId, orNull im.senderNickname, im.content, now⟩] := by
  unfold addMessage getRoomMessages
  rw [updateRoomActivity_messages]
  simp [mget_mset_self]

theorem addMessage_last {s : StoreState} {im : InsertMessage} {room : ChatRoom}
    (h : mget s.rooms im.roomId = some room) (mid : String) (now : Nat) :
    (getRoom (addMessage s im mid now).2 im.roomId).map ChatRoom.lastActivityAt
      = some now := by
  simp only [addMessage, updateRoomActivity, h]
  simp [getRoom, mget_mset_self]

theorem addMessage_rooms_of_absent {s : StoreState} {im : InsertMessage}
    (h : mget s.rooms im.roomId = none) (mid : String) (now : Nat) :
    (addMessage s im mid now).2.rooms = s.rooms ∧
    (addMessage s im mid now).2.participants = s.participants := by
  simp only [addMessage, updateRoomActivity, h]
  simp

theorem updateParticipantCount_spec (s : StoreState) {rid : String} {room : ChatRoom}
    (h : mget s.rooms rid = some room) :
    getRoom (updateParticipantCount s rid) rid
      = some { room with participantCount := toString (getRoomParticipants s rid).length } := by
  unfold updateParticipantCount getRoom getRoomParticipants
  rw [h]
  simp [mget_mset_self]

theorem updateParticipantCount_other (s : StoreState) {rid q : String} (hq : q ≠ rid) :
    getRoom (updateParticipantCount s rid) q = getRoom s q := by
  unfold updateParticipantCount getRoom
  cases h : mget s.rooms rid with
  | none => rfl
  | some room => simp [mget_mset_ne _ _ _ _ hq]

/-! Facts about `handleDisconnect` needed for idempotence. -/

theorem handleDisconnect_socket_maps (st : ServerState) (ws : Conn) :
    (handleDisconnect st ws).1.socketToRoom = mdel st.socketToRoom ws ∧
    (handleDisconnect st ws).1.socketToUser = mdel st.socketToUser ws := by
  unfold handleDisconnect
  cases h1 : mget st.socketToRoom ws with
  | none => cases h2 : mget st.socketToUser ws <;> exact ⟨rfl, rfl⟩
  | some rid =>
    cases h2 : mget st.socketToUser ws with
    | none => exact ⟨rfl, rfl⟩
    | some user =>
      by_cases hrid : rid = ""
      · simp [hrid]
      · simp [hrid]

theorem handleDisconnect_unbound {st : ServerState} {ws : Conn}
    (h : mget st.socketToRoom ws = none) :
    handleDisconnect st ws
      = ({ st with socketToRoom := mdel st.socketToRoom ws
                   socketToUser := mdel st.socketToUser ws }, []) := by
  unfold handleDisconnect
  rw [h]

/-! Specifications of `addParticipant` / `removeParticipant`. -/

theorem addParticipant_spec (s : StoreState) (rid : String) (p : Participant)
    {room : ChatRoom} (h : mget s.rooms rid = some room) :
    ∃ r1, getRoom (addParticipant s rid p) rid = some r1 ∧
      r1.participantCount
        = toString (getRoomParticipants (addParticipant s rid p) rid).length := by
  unfold addParticipant
  refine ⟨_, updateParticipantCount_spec _ h, ?_⟩
  simp only [getRoomParticipants, updateParticipantCount_participants]

theorem removeParticipant_spec (s : StoreState) (rid sid : String)
    {room : ChatRoom} (h : mget s.rooms rid = some room) :
    ∃ r2, getRoom (removeParticipant s rid sid) rid = some r2 ∧
      r2.participantCount
        = toString (getRoomParticipants (removeParticipant s rid sid) rid).length := by
  unfold removeParticipant
  refine ⟨_, updateParticipantCount_spec _ h, ?_⟩
  simp only [getRoomParticipants, updateParticipantCount_participants]

theorem addParticipant_other (s : StoreState) (rid : String) (p : Participant)
    {q : String} (hq : q ≠ rid) :
    getRoom (addParticipant s rid p) q = getRoom s q ∧
    getRoomParticipants (addParticipant s rid p) q = getRoomParticipants s q := by
  unfold addParticipant
  constructor
  · exact updateParticipantCount_other _ hq
  · simp only [getRoomParticipants, updateParticipantCount_participants]
    exact congrArg (fun o => Option.getD o []) (mget_mset_ne s.participants rid q _ hq)

theorem removeParticipant_other (s : StoreState) (rid sid : String)
    {q : String} (hq : q ≠ rid) :
    getRoom (removeParticipant s rid sid) q = getRoom s q ∧
    getRoomParticipants (removeParticipant s rid sid) q = getRoomParticipants s q := by
  unfold removeParticipant
  constructor
  · exact updateParticipantCount_other _ hq
  · simp only [getRoomParticipants, updateParticipantCount_participants]
    exact congrArg (fun o => Option.getD o []) (mget_mset_ne s.participants rid q _ hq)

/-! Claim theorems. -/

/-- C1: the claim says a second `join_room` from an already-joined connection
replaces the prior participant entry, leaving exactly one store entry and one
registered connection for that handle.  The code violates this: each join
mints a fresh `socketId` via `randomUUID()`, so `addParticipant`'s
same-`socketId` replacement never fires for a rejoin.  Evaluating the
handlers: after handle 0 joins room `"R"` twice, the store holds TWO
participant entries and the registry maps two socket ids to handle 0; after
handle 0 then disconnects, one ghost entry still remains (disconnect removes
only the latest `socketId`). -/
theorem C1_second_join_duplicates_entries :
    (getRoomParticipants exJoinedTwice.store "R").length = 2 ∧
    ((mget exJoinedTwice.roomConnections "R").getD []).map Prod.snd = [0, 0] ∧
    (getRoomParticipants (handleDisconnect exJoinedTwice 0).1.store "R").length = 1 := by
  decide

/-- C2 counterexample: with handle 0 live (open) and registered to room
`"R"` whose `lastActivityAt` is 0, the idle sweep at `now = 660000` (11
minutes) deletes the room but delivers `room_destroyed` to handle 0 zero
times, not exactly once: `MemStorage.startCleanupJob` only calls
`deleteRoom` and sends nothing. -/
theorem C2_cx_sweep_sends_no_room_destroyed :
    (cleanupTick exJoined.store 660000).2.count ((0 : Conn), WSResponse.roomDestroyed) = 0 ∧
    ("s1", (0 : Conn)) ∈ (mget exJoined.roomConnections "R").getD [] ∧
    (0 : Conn) ∈ exJoined.openConns ∧
    getRoom (cleanupTick exJoined.store 660000).1 "R" = none := by
  decide

/-- C2 amended: one idle-sweep tick deletes every room whose
`lastActivityAt` is older than the 10-minute threshold together with its
messages and participants, leaves every other room (and its messages and
participants) unchanged, and emits no event at all — in particular no
`room_destroyed` reaches any connection. -/
theorem C2_amended_idle_sweep (s : StoreState) (now : Nat) (k : String) (room : ChatRoom)
    (hW : StoreWF s) (hC : RoomKeysCoherent s) (hk : mget s.rooms k = some room) :
    (cleanupTick s now).2 = [] ∧
    (room.lastActivityAt < now - 600000 →
      getRoom (cleanupTick s now).1 k = none ∧
      mget (cleanupTick s now).1.messages k = none ∧
      mget (cleanupTick s now).1.participants k = none) ∧
    (¬ room.lastActivityAt < now - 600000 →
      getRoom (cleanupTick s now).1 k = some room ∧
      mget (cleanupTick s now).1.messages k = mget s.messages k ∧
      mget (cleanupTick s now).1.participants k = mget s.participants k) := by
  obtain ⟨hf1, hf2, hf3⟩ := cleanupFold_mget (getInactiveRooms s 10 now) s hW k
  have h600 : (10 : Nat) * 60 * 1000 = 600000 := by norm_num
  refine ⟨rfl, ?_, ?_⟩
  · intro hexp
    have hkr : (k, room) ∈ s.rooms := mget_some_mem hk
    have hid : room.id = k := hC (k, room) hkr
    have hroom : room ∈ getInactiveRooms s 10 now := by
      unfold getInactiveRooms
      rw [h600]
      exact List.mem_filter.mpr
        ⟨List.mem_map.mpr ⟨(k, room), hkr, rfl⟩, by simpa using hexp⟩
    have hmem : k ∈ (getInactiveRooms s 10 now).map ChatRoom.id :=
      hid ▸ List.mem_map.mpr ⟨room, hroom, rfl⟩
    refine ⟨?_, ?_, ?_⟩
    · show mget ((getInactiveRooms s 10 now).foldl (fun st r => deleteRoom st r.id) s).rooms k
        = none
      rw [hf1, if_pos hmem]
    · show mget ((getInactiveRooms s 10 now).foldl (fun st r => deleteRoom st r.id) s).messages k
        = none
      rw [hf2, if_pos hmem]
    · show mget
          ((getInactiveRooms s 10 now).foldl (fun st r => deleteRoom st r.id) s).participants k
        = none
      rw [hf3, if_pos hmem]
  · intro hrec
    have hmem : k ∉ (getInactiveRooms s 10 now).map ChatRoom.id := by
      intro hx
      obtain ⟨r, hrL, hrid⟩ := List.mem_map.mp hx
      have hrL2 : r ∈ (s.rooms.map Prod.snd).filter
          (fun r => r.lastActivityAt < now - 600000) := by
        unfold getInactiveRooms at hrL
        rw [h600] at hrL
        exact hrL
      obtain ⟨hrmem, hrlt⟩ := List.mem_filter.mp hrL2
      obtain ⟨kr, hkr, hsnd⟩ := List.mem_map.mp hrmem
      have hkey : kr.1 = k := by rw [← hC kr hkr, hsnd, hrid]
      have hg : mget s.rooms kr.1 = some kr.2 :=
        mget_eq_of_mem_nodup hW.1 (by simpa using hkr)
      rw [hkey, hk] at hg
      have hr_eq : r = room := by rw [← hsnd, ← Option.some.inj hg]
      rw [hr_eq] at hrlt
      exact hrec (by simpa using hrlt)
    refine ⟨?_, ?_, ?_⟩
    · show mget ((getInactiveRooms s 10 now).foldl (fun st r => deleteRoom st r.id) s).rooms k
        = some room
      rw [hf1, if_neg hmem, hk]
    · show mget ((getInactiveRooms s 10 now).foldl (fun st r => deleteRoom st r.id) s).messages k
        = mget s.messages k
      rw [hf2, if_neg hmem]
    · show mget
          ((getInactiveRooms s 10 now).foldl (fun st r => deleteRoom st r.id) s).participants k
        = mget s.participants k
      rw [hf3, if_neg hmem]

/-- Witness for `C2_amended_idle_sweep` at the concrete store `exStore`:
room `"R"` with `lastActivityAt = 0` is expired at `now = 660000` and the
sweep deletes it while emitting nothing. -/
theorem C2_amended_idle_sweep_witness :
    StoreWF exStore ∧ RoomKeysCoherent exStore ∧
    mget exStore.rooms "R" = some ⟨"R", 0, 0, "0"⟩ ∧
    (⟨"R", 0, 0, "0"⟩ : ChatRoom).lastActivityAt < 660000 - 600000 ∧
    (cleanupTick exStore 660000).2 = [] ∧
    getRoom (cleanupTick exStore 660000).1 "R" = none := by
  have h := C2_amended_idle_sweep exStore 660000 "R" ⟨"R", 0, 0, "0"⟩
    (by decide) (by decide) (by decide)
  exact ⟨by decide, by decide, by decide, by decide, h.1, (h.2.1 (by decide)).1⟩

/-- C3 counterexample: the store created room `"R"` at time 0; adding or
removing a participant (the join/leave mutations) leaves `lastActivityAt`
at 0 — the operations never consult the clock — even though the operation
happens at a later time (here nominally 5). -/
theorem C3_cx_join_leave_do_not_touch_activity :
    (getRoom (addParticipant exStore "R" ⟨"p1", "alice", "s1", 5⟩) "R").map
        ChatRoom.lastActivityAt = some 0 ∧
    (getRoom (removeParticipant exStore "R" "s1") "R").map
        ChatRoom.lastActivityAt = some 0 ∧
    (0 : Nat) ≠ 5 := by
  decide

/-- C3 amended: appending a message updates the room's `lastActivityAt` to
the current time, but adding or removing a participant leaves every room's
`lastActivityAt` exactly as it was (those operations only recount
`participantCount`). -/
theorem C3_amended_only_messages_touch_activity (s : StoreState) (rid : String)
    (p : Participant) (sid q : String) (im : InsertMessage) (mid : String) (now : Nat)
    (room : ChatRoom) (hroom : mget s.rooms im.roomId = some room) :
    ((getRoom (addParticipant s rid p) q).map ChatRoom.lastActivityAt
       = (getRoom s q).map ChatRoom.lastActivityAt) ∧
    ((getRoom (removeParticipant s rid sid) q).map ChatRoom.lastActivityAt
       = (getRoom s q).map ChatRoom.lastActivityAt) ∧
    ((getRoom (addMessage s im mid now).2 im.roomId).map ChatRoom.lastActivityAt
       = some now) := by
  refine ⟨?_, ?_, addMessage_last hroom mid now⟩
  · unfold addParticipant
    exact updateParticipantCount_room_last _ rid q
  · unfold removeParticipant
    exact updateParticipantCount_room_last _ rid q

/-- Witness for `C3_amended_only_messages_touch_activity` on `exStore`. -/
theorem C3_amended_witness :
    mget exStore.rooms "R" = some ⟨"R", 0, 0, "0"⟩ ∧
    (getRoom (addParticipant exStore "R" ⟨"p1", "alice", "s1", 5⟩) "R").map
        ChatRoom.lastActivityAt
      = (getRoom exStore "R").map ChatRoom.lastActivityAt ∧
    (getRoom (addMessage exStore ⟨"R", some "u", some "a", "hi"⟩ "m1" 9).2 "R").map
        ChatRoom.lastActivityAt = some 9 := by
  have h := C3_amended_only_messages_touch_activity exStore "R" ⟨"p1", "alice", "s1", 5⟩
    "s1" "R" ⟨"R", some "u", some "a", "hi"⟩ "m1" 9 ⟨"R", 0, 0, "0"⟩ (by decide)
  exact ⟨by decide, h.1, h.2.2⟩

/-- C4 counterexample: a whitespace-only (but non-empty) `send_message` from
the JOINED handle 0 is NOT rejected: the text is truthy, survives the
`!message.message` guard, is trimmed to `""`, passes `insertMessageSchema`
(which imposes no minimum length), and an empty-content message is stored
and broadcast as `new_message` — the claim's error-and-unchanged-store
behaviour fails. -/
theorem C4_cx_whitespace_message_is_stored :
    (getRoomMessages (handleSendMessage exJoined 0 (some " ") "m1" 5).1.store "R").length
        = 1 ∧
    (handleSendMessage exJoined 0 (some " ") "m1" 5).2
      = [(0, WSResponse.newMessage ⟨"m1", "", "alice", some "p1", 5, [], []⟩)] := by
  decide

/-- C4 amended: for a JOINED connection, only absent or empty-string text is
rejected with `error "Invalid message"` to the sender alone (store
unchanged); non-empty text that trims to `""` is appended to the room's
message list with empty content, and no error is sent to the sender. -/
theorem C4_amended_send_validation (st : ServerState) (ws : Conn) (rid : String)
    (user : Participant) (t mid : String) (now : Nat)
    (hR : mget st.socketToRoom ws = some rid) (hrid : rid ≠ "")
    (hU : mget st.socketToUser ws = some user) :
    (handleSendMessage st ws (some "") mid now
       = (st, sendTo st ws (WSResponse.error "Invalid message"))) ∧
    (t ≠ "" → jsTrim t = "" →
      (getRoomMessages (handleSendMessage st ws (some t) mid now).1.store rid
         = getRoomMessages st.store rid
           ++ [⟨mid, rid, orNull (some user.id), orNull (some user.nickname), jsTrim t, now⟩]) ∧
      (∀ e, (ws, WSResponse.error e) ∉ (handleSendMessage st ws (some t) mid now).2)) := by
  constructor
  · simp [handleSendMessage, hR, hU]
  · intro ht _
    have hor : ¬ (rid = "" ∨ t = "") := by
      rintro (h1 | h2)
      exacts [hrid h1, ht h2]
    constructor
    · simp only [handleSendMessage, hR, hU, insertMessageParse, if_neg hor]
      exact addMessage_getRoomMessages st.store ⟨rid, some user.id, some user.nickname, jsTrim t⟩
        mid now
    · intro e he
      simp only [handleSendMessage, hR, hU, insertMessageParse, if_neg hor] at he
      rw [mem_broadcast_iff] at he
      exact WSResponse.noConfusion he.1

/-- Witness for `C4_amended_send_validation` on `exJoined` with text `" "`. -/
theorem C4_amended_send_validation_witness :
    mget exJoined.socketToRoom 0 = some "R" ∧ "R" ≠ "" ∧
    mget exJoined.socketToUser 0 = some ⟨"p1", "alice", "s1", 1⟩ ∧
    " " ≠ "" ∧ jsTrim " " = "" ∧
    handleSendMessage exJoined 0 (some "") "m1" 5
      = (exJoined, sendTo exJoined 0 (WSResponse.error "Invalid message")) ∧
    getRoomMessages (handleSendMessage exJoined 0 (some " ") "m1" 5).1.store "R"
      = getRoomMessages exJoined.store "R"
        ++ [⟨"m1", "R", orNull (some "p1"), orNull (some "alice"), jsTrim " ", 5⟩] := by
  have h := C4_amended_send_validation exJoined 0 "R" ⟨"p1", "alice", "s1", 1⟩ " " "m1" 5
    (by decide) (by decide) (by decide)
  exact ⟨by decide, by decide, by decide, by decide, by decide, h.1,
    (h.2 (by decide) (by decide)).1⟩

/-- C5 counterexample: `addMessage` against the room id `"R"`, absent from
an empty store, does NOT fail — it returns the message and stores it under
`"R"`. -/
theorem C5_cx_addMessage_absent_room_stores :
    getRoom (⟨[], [], []⟩ : StoreState) "R" = none ∧
    getRoomMessages (addMessage ⟨[], [], []⟩ ⟨"R", some "u", some "a", "hi"⟩ "m1" 7).2 "R"
      = [⟨"m1", "R", some "u", some "a", "hi", 7⟩] := by
  decide

/-- C5 amended: for a room id absent from the store, `addMessage` still
returns the built message and appends it to a (new) message list under that
id; the rooms and participants maps are left unchanged (the
`updateRoomActivity` step no-ops). -/
theorem C5_amended_addMessage_total (s : StoreState) (im : InsertMessage)
    (mid : String) (now : Nat) (h : mget s.rooms im.roomId = none) :
    (addMessage s im mid now).1
        = ⟨mid, im.roomId, orNull im.senderId, orNull im.senderNickname, im.content, now⟩ ∧
    getRoomMessages (addMessage s im mid now).2 im.roomId
        = getRoomMessages s im.roomId
          ++ [⟨mid, im.roomId, orNull im.senderId, orNull im.senderNickname, im.content, now⟩] ∧
    (addMessage s im mid now).2.rooms = s.rooms ∧
    (addMessage s im mid now).2.participants = s.participants := by
  exact ⟨rfl, addMessage_getRoomMessages s im mid now,
    (addMessage_rooms_of_absent h mid now).1, (addMessage_rooms_of_absent h mid now).2⟩

/-- Witness for `C5_amended_addMessage_total` on the empty store. -/
theorem C5_amended_addMessage_total_witness :
    mget (⟨[], [], []⟩ : StoreState).rooms "R" = none ∧
    getRoomMessages (addMessage ⟨[], [], []⟩ ⟨"R", some "u", some "a", "hi"⟩ "m1" 7).2 "R"
      = getRoomMessages (⟨[], [], []⟩ : StoreState) "R"
        ++ [⟨"m1", "R", orNull (some "u"), orNull (some "a"), "hi", 7⟩] ∧
    (addMessage ⟨[], [], []⟩ ⟨"R", some "u", some "a", "hi"⟩ "m1" 7).2.rooms
      = (⟨[], [], []⟩ : StoreState).rooms := by
  have h := C5_amended_addMessage_total ⟨[], [], []⟩ ⟨"R", some "u", some "a", "hi"⟩ "m1" 7
    (by decide)
  exact ⟨by decide, h.2.1, h.2.2.1⟩

/-- C6 counterexample: a parseable frame with the unknown type `"bogus"`
from the open handle 0 produces NO error at all (the `switch` falls
through silently), contradicting the claim that a generic error is sent
to the offending connection. -/
theorem C6_cx_unknown_type_is_silent :
    handleFrame exJoined 0 (InFrame.parsed "bogus" none none none none) "p" "s" "m" 3
      = (exJoined, []) ∧
    (0 : Conn) ∈ exJoined.openConns := by
  decide

/-- C6 amended: a frame whose parse throws gets `error "Invalid message
format"` sent to the offending connection only, with no state change; a
parseable frame with a type matching none of the six handled cases is
ignored silently — no event to anyone and no state change. -/
theorem C6_amended_malformed_frames (st : ServerState) (ws : Conn)
    (freshPid freshSid freshMid : String) (now : Nat) (t : String)
    (roomId nickname message messageId : Option String)
    (h : t ∉ ["join_room", "leave_room", "send_message", "typing_start",
              "typing_stop", "message_read"]) :
    handleFrame st ws InFrame.unparseable freshPid freshSid freshMid now
      = (st, sendTo st ws (WSResponse.error "Invalid message format")) ∧
    handleFrame st ws (InFrame.parsed t roomId nickname message messageId)
        freshPid freshSid freshMid now = (st, []) := by
  refine ⟨rfl, ?_⟩
  simp only [List.mem_cons, List.mem_singleton, not_or] at h
  obtain ⟨h1, h2, h3, h4, h5, h6, _⟩ := h
  simp [handleFrame, h1, h2, h3, h4, h5, h6]

/-- Witness for `C6_amended_malformed_frames` at type `"bogus"`. -/
theorem C6_amended_malformed_frames_witness :
    ("bogus" ∉ ["join_room", "leave_room", "send_message", "typing_start",
                "typing_stop", "message_read"]) ∧
    handleFrame exJoined 0 InFrame.unparseable "p" "s" "m" 3
      = (exJoined, sendTo exJoined 0 (WSResponse.error "Invalid message format")) ∧
    handleFrame exJoined 0 (InFrame.parsed "bogus" none none none none) "p" "s" "m" 3
      = (exJoined, []) := by
  have h := C6_amended_malformed_frames exJoined 0 "p" "s" "m" 3 "bogus"
    none none none none (by decide)
  exact ⟨by decide, h.1, h.2⟩

/-- C7: for a `typing_start` or `typing_stop` from a JOINED connection, the
resulting `typing_update` reaches every other open connection registered to
the room, and never the sender itself; the state is unchanged. -/
theorem C7_typing_excludes_sender (st : ServerState) (ws : Conn) (rid : String)
    (user : Participant)
    (hR : mget st.socketToRoom ws = some rid) (hrid : rid ≠ "")
    (hU : mget st.socketToUser ws = some user) :
    (handleTypingStart st ws).1 = st ∧ (handleTypingStop st ws).1 = st ∧
    (∀ e : WSResponse, (ws, e) ∉ (handleTypingStart st ws).2) ∧
    (∀ e : WSResponse, (ws, e) ∉ (handleTypingStop st ws).2) ∧
    (∀ c : Conn, c ≠ ws → c ∈ st.openConns →
      (∃ sid, (sid, c) ∈ (mget st.roomConnections rid).getD []) →
      ((c, WSResponse.typingUpdate user.id user.nickname true)
          ∈ (handleTypingStart st ws).2 ∧
       (c, WSResponse.typingUpdate user.id user.nickname false)
          ∈ (handleTypingStop st ws).2)) := by
  have e1 : handleTypingStart st ws
      = (st, (((mget st.roomConnections rid).getD []).map (fun p =>
          if p.2 ≠ ws then
            sendTo st p.2 (WSResponse.typingUpdate user.id user.nickname true)
          else [])).flatten) := by
    simp [handleTypingStart, hR, hU, hrid]
  have e2 : handleTypingStop st ws
      = (st, (((mget st.roomConnections rid).getD []).map (fun p =>
          if p.2 ≠ ws then
            sendTo st p.2 (WSResponse.typingUpdate user.id user.nickname false)
          else [])).flatten) := by
    simp [handleTypingStop, hR, hU, hrid]
  refine ⟨by rw [e1], by rw [e2], ?_, ?_, ?_⟩
  · intro e he
    rw [e1] at he
    rw [mem_fanout_iff] at he
    exact he.1 rfl
  · intro e he
    rw [e2] at he
    rw [mem_fanout_iff] at he
    exact he.1 rfl
  · rintro c hc ho ⟨sid, hmem⟩
    constructor
    · rw [e1]
      exact mem_fanout_iff.mpr ⟨hc, rfl, ho, sid, hmem⟩
    · rw [e2]
      exact mem_fanout_iff.mpr ⟨hc, rfl, ho, sid, hmem⟩

/-- Witness for `C7_typing_excludes_sender`: in `exTwoConns` (handles 0 and
1 joined to `"R"`), handle 0's `typing_start` reaches handle 1 and never
handle 0. -/
theorem C7_typing_excludes_sender_witness :
    mget exTwoConns.socketToRoom 0 = some "R" ∧ "R" ≠ "" ∧
    mget exTwoConns.socketToUser 0 = some ⟨"p1", "alice", "s1", 1⟩ ∧
    ((1 : Conn), WSResponse.typingUpdate "p1" "alice" true)
      ∈ (handleTypingStart exTwoConns 0).2 ∧
    ¬ ((0 : Conn), WSResponse.typingUpdate "p1" "alice" true)
      ∈ (handleTypingStart exTwoConns 0).2 := by
  have h := C7_typing_excludes_sender exTwoConns 0 "R" ⟨"p1", "alice", "s1", 1⟩
    (by decide) (by decide) (by decide)
  exact ⟨by decide, by decide, by decide,
    (h.2.2.2.2 1 (by decide) (by decide) ⟨"s2", by decide⟩).1,
    h.2.2.1 (WSResponse.typingUpdate "p1" "alice" true)⟩

/-- C8: after `addParticipant` or `removeParticipant` on an existing room,
the room's stored `participantCount` is exactly the participant list's
length rendered as a string (it is recomputed by `updateParticipantCount`);
every other room's record and participant list are untouched. -/
theorem C8_participant_count_recomputed (s : StoreState) (rid : String) (p : Participant)
    (sid : String) (room : ChatRoom) (q : String)
    (h : mget s.rooms rid = some room) (hq : q ≠ rid) :
    (∃ r1, getRoom (addParticipant s rid p) rid = some r1 ∧
       r1.participantCount
         = toString (getRoomParticipants (addParticipant s rid p) rid).length) ∧
    (∃ r2, getRoom (removeParticipant s rid sid) rid = some r2 ∧
       r2.participantCount
         = toString (getRoomParticipants (removeParticipant s rid sid) rid).length) ∧
    getRoom (addParticipant s rid p) q = getRoom s q ∧
    getRoomParticipants (addParticipant s rid p) q = getRoomParticipants s q ∧
    getRoom (removeParticipant s rid sid) q = getRoom s q ∧
    getRoomParticipants (removeParticipant s rid sid) q = getRoomParticipants s q := by
  exact ⟨addParticipant_spec s rid p h, removeParticipant_spec s rid sid h,
    (addParticipant_other s rid p hq).1, (addParticipant_other s rid p hq).2,
    (removeParticipant_other s rid sid hq).1, (removeParticipant_other s rid sid hq).2⟩

/-- Witness for `C8_participant_count_recomputed` on `exStore`. -/
theorem C8_participant_count_recomputed_witness :
    mget exStore.rooms "R" = some ⟨"R", 0, 0, "0"⟩ ∧ "Q" ≠ "R" ∧
    (∃ r1, getRoom (addParticipant exStore "R" ⟨"p1", "alice", "s1", 1⟩) "R" = some r1 ∧
       r1.participantCount
         = toString
             (getRoomParticipants (addParticipant exStore "R" ⟨"p1", "alice", "s1", 1⟩)
               "R").length) ∧
    getRoom (removeParticipant exStore "R" "s9") "Q" = getRoom exStore "Q" := by
  have h := C8_participant_count_recomputed exStore "R" ⟨"p1", "alice", "s1", 1⟩ "s9"
    ⟨"R", 0, 0, "0"⟩ "Q" (by decide) (by decide)
  exact ⟨by decide, by decide, h.1, h.2.2.2.2.1⟩

/-- C9: disconnect handling is idempotent — after `handleDisconnect` has run
for a connection, running it again returns the same state and emits no
event (the second lookup of the socket finds no binding, and deleting the
already-deleted map entries is a no-op). -/
theorem C9_disconnect_idempotent (st : ServerState) (ws : Conn)
    (h1 : (st.socketToRoom.map Prod.fst).Nodup)
    (h2 : (st.socketToUser.map Prod.fst).Nodup) :
    handleDisconnect (handleDisconnect st ws).1 ws = ((handleDisconnect st ws).1, []) := by
  obtain ⟨hr, hu⟩ := handleDisconnect_socket_maps st ws
  have hnone : mget (handleDisconnect st ws).1.socketToRoom ws = none := by
    rw [hr]
    exact mget_mdel_self _ h1
  have hnoneU : mget (handleDisconnect st ws).1.socketToUser ws = none := by
    rw [hu]
    exact mget_mdel_self _ h2
  rw [handleDisconnect_unbound hnone]
  rw [mdel_of_not_mem ((mget_eq_none_iff _ _).mp hnone),
    mdel_of_not_mem ((mget_eq_none_iff _ _).mp hnoneU)]

/-- Witness for `C9_disconnect_idempotent` on `exJoined`. -/
theorem C9_disconnect_idempotent_witness :
    (exJoined.socketToRoom.map Prod.fst).Nodup ∧
    (exJoined.socketToUser.map Prod.fst).Nodup ∧
    handleDisconnect (handleDisconnect exJoined 0).1 0
      = ((handleDisconnect exJoined 0).1, []) := by
  exact ⟨by decide, by decide, C9_disconnect_idempotent exJoined 0 (by decide) (by decide)⟩

/-- C10 counterexample: `removeParticipant` on a room id absent from the
store is not a pure no-op — `this.participants.set(roomId, filtered)` runs
unconditionally and materializes an empty participant list under the
unknown id, changing the store. -/
theorem C10_cx_removeParticipant_materializes_entry :
    removeParticipant ⟨[], [], []⟩ "R" "s1" = ⟨[], [], [("R", [])]⟩ ∧
    (⟨[], [], [("R", [])]⟩ : StoreState) ≠ (⟨[], [], []⟩ : StoreState) := by
  decide

/-- C10 amended: every store operation is total on an absent room id and
throws nothing: `getRoom` answers `none`, the two list queries answer `[]`,
`deleteRoom` and `updateRoomActivity` return the store unchanged, and
`removeParticipant` changes nothing observable — all queries answer as
before — though it does record an empty participant list under the id. -/
theorem C10_amended_total_on_absent (s : StoreState) (rid sid : String) (now : Nat)
    (h1 : mget s.rooms rid = none) (h2 : mget s.messages rid = none)
    (h3 : mget s.participants rid = none) :
    getRoom s rid = none ∧
    getRoomMessages s rid = [] ∧
    getRoomParticipants s rid = [] ∧
    deleteRoom s rid = s ∧
    updateRoomActivity s rid now = s ∧
    removeParticipant s rid sid = { s with participants := s.participants ++ [(rid, [])] } ∧
    (∀ q, getRoomParticipants (removeParticipant s rid sid) q = getRoomParticipants s q) := by
  have d1 : mdel s.rooms rid = s.rooms := mdel_of_not_mem ((mget_eq_none_iff _ _).mp h1)
  have d2 : mdel s.messages rid = s.messages := mdel_of_not_mem ((mget_eq_none_iff _ _).mp h2)
  have d3 : mdel s.participants rid = s.participants :=
    mdel_of_not_mem ((mget_eq_none_iff _ _).mp h3)
  have hm : mset s.participants rid ([] : List Participant) = s.participants ++ [(rid, [])] :=
    mset_of_not_mem _ ((mget_eq_none_iff _ _).mp h3)
  have hrp : removeParticipant s rid sid
      = { s with participants := s.participants ++ [(rid, [])] } := by
    unfold removeParticipant updateParticipantCount
    simp only [h3, Option.getD_none, List.filter_nil, h1, hm]
  refine ⟨h1, ?_, ?_, ?_, updateRoomActivity_none s h1 now, hrp, ?_⟩
  · unfold getRoomMessages
    rw [h2]
    rfl
  · unfold getRoomParticipants
    rw [h3]
    rfl
  · unfold deleteRoom
    rw [d1, d2, d3]
  · intro q
    rw [hrp]
    unfold getRoomParticipants
    by_cases hq : q = rid
    · subst hq
      show (mget (s.participants ++ [(q, [])]) q).getD [] = (mget s.participants q).getD []
      rw [← hm, mget_mset_self, h3]
      rfl
    · show (mget (s.participants ++ [(rid, [])]) q).getD [] = (mget s.participants q).getD []
      rw [← hm, mget_mset_ne _ _ _ _ hq]

/-- Witness for `C10_amended_total_on_absent` on the empty store. -/
theorem C10_amended_total_on_absent_witness :
    mget (⟨[], [], []⟩ : StoreState).rooms "R" = none ∧
    mget (⟨[], [], []⟩ : StoreState).messages "R" = none ∧
    mget (⟨[], [], []⟩ : StoreState).participants "R" = none ∧
    deleteRoom ⟨[], [], []⟩ "R" = (⟨[], [], []⟩ : StoreState) ∧
    updateRoomActivity ⟨[], [], []⟩ "R" 5 = (⟨[], [], []⟩ : StoreState) ∧
    getRoomParticipants (removeParticipant ⟨[], [], []⟩ "R" "s1") "R"
      = getRoomParticipants (⟨[], [], []⟩ : StoreState) "R" := by
  have h := C10_amended_total_on_absent ⟨[], [], []⟩ "R" "s1" 5
    (by decide) (by decide) (by decide)
  exact ⟨by decide, by decide, by decide, h.2.2.2.1, h.2.2.2.2.1, h.2.2.2.2.2.2 "R"⟩

end TempChat
